import Mathlib

/-!
Verification of the RiskLens event/risk extraction engine
(`backend/src/event_detector.py`, `backend/src/api.py`,
`backend/src/risk_analyzer.py`).

Modelling conventions:
* Python strings are modelled as lists of Unicode code points
  (`List Nat`), matching the Python view of `str` as a sequence of code
  points; the character classes used by the source (regex `\d`, `\w`,
  whitespace, `[A-Za-z]`, `str.lower`, `str.isdigit`) are modelled on
  the ASCII range, which is the alphabet of the SEC-filing texts the
  engine processes.
* Calendar dates are represented by their proleptic-Gregorian day
  number (rata die, epoch 1970-01-01), the representation underlying
  Python `datetime.date` ordering and `timedelta` arithmetic.
* A compiled regex object is modelled by its semantic match function
  (the list of spans `finditer` yields on a given text); the three date
  regexes of `api.py` are modelled concretely, matcher by matcher.
* The float midpoint distances of `_parse_date_nearest_to_span` are
  multiples of 1/2 and are compared exactly by the source (IEEE doubles
  are exact on these values), so they are modelled by the doubled
  integer distances, which carry the same order.
-/

namespace RiskLens

/-! ### Event detector (`event_detector.py`) -/

/-- A compiled matcher from `EventDetector._compile_patterns`: the regex
object is modelled by its semantic match function (the spans it yields
on a given text), tagged with its origin (`"keyword"` or `"regex"`). -/
structure PatternEntry where
  find : List Nat → List (Nat × Nat)
  source : String

/-- The per-event-type record stored in `EventDetector.patterns`. -/
structure EventPatterns where
  patterns : List PatternEntry
  T_star_days : Option Int
  event_nature : Option String
  likely_triggers : List String
  description : Option String
  confidence_interval : Option String

/-- The compiled pattern table `EventDetector.patterns` (an
insertion-ordered dict, modelled as an association list). -/
abbrev PatternTable := List (String × EventPatterns)

/-- One raw or kept match dict built in `EventDetector.detect_events`. -/
structure RawMatch where
  event_type : String
  T_star_days : Option Int
  event_nature : Option String
  likely_triggers : List String
  description : Option String
  confidence_interval : Option String
  match_text : List Nat
  match_span : Nat × Nat
  pattern_source : String
deriving DecidableEq

/-- The raw match collection loop of `detect_events`: every matcher of
every event type is run over the full text and each span becomes a raw
match dict carrying the event metadata. -/
def collect_raw_matches (table : PatternTable) (text : List Nat) : List RawMatch :=
  table.flatMap fun et =>
    et.2.patterns.flatMap fun pat =>
      (pat.find text).map fun sp =>
        { event_type := et.1
          T_star_days := et.2.T_star_days
          event_nature := et.2.event_nature
          likely_triggers := et.2.likely_triggers
          description := et.2.description
          confidence_interval := et.2.confidence_interval
          match_text := (text.drop sp.1).take (sp.2 - sp.1)
          match_span := sp
          pattern_source := pat.source }

/-- `_source_priority` from `detect_events`: 0 for `"regex"`, 1 otherwise. -/
def source_priority (src : String) : Nat := if src = "regex" then 0 else 1

/-- Span length of a raw match. -/
def match_len (r : RawMatch) : Nat := r.match_span.2 - r.match_span.1

/-- The sort order used by `raw_matches.sort(key=lambda r:
(-(length), source_priority))`: length descending, then source priority
ascending. Python sort is stable, so it equals the stable insertion
sort by this total preorder. -/
def raw_le (a b : RawMatch) : Prop :=
  match_len b < match_len a ∨
    (match_len a = match_len b ∧
      source_priority a.pattern_source ≤ source_priority b.pattern_source)

instance : DecidableRel raw_le := fun a b => by
  unfold raw_le; exact inferInstance

instance : IsTotal RawMatch raw_le := by
  constructor
  intro a b
  unfold raw_le
  omega

instance : IsTrans RawMatch raw_le := by
  constructor
  intro a b c hab hbc
  unfold raw_le at *
  omega

/-- Overlap test from the dedup loop: spans overlap unless one ends at
or before the other starts (`not (e <= ks or s >= ke)`). -/
def spans_overlap (a b : Nat × Nat) : Prop := ¬ (a.2 ≤ b.1 ∨ b.2 ≤ a.1)

instance : DecidableRel spans_overlap := fun a b => by
  unfold spans_overlap; exact inferInstance

theorem spans_overlap_symm {a b : Nat × Nat} (h : spans_overlap a b) :
    spans_overlap b a := by
  unfold spans_overlap at *; omega

/-- The greedy overlap-resolution scan of `detect_events`: walk the
sorted raw matches, keep a match only when its span overlaps no
already-occupied span, and record the kept span. -/
def dedup_scan : List RawMatch → List (Nat × Nat) → List RawMatch
  | [], _ => []
  | r :: rest, occupied =>
    if occupied.any fun k => decide (spans_overlap r.match_span k) then
      dedup_scan rest occupied
    else
      r :: dedup_scan rest (occupied ++ [r.match_span])

/-- Sort order of the final `sorted(kept, key=lambda x: x.match_span[0])`. -/
def start_le (a b : RawMatch) : Prop := a.match_span.1 ≤ b.match_span.1

instance : DecidableRel start_le := fun a b => by
  unfold start_le; exact inferInstance

instance : IsTotal RawMatch start_le := by
  constructor; intro a b; unfold start_le; omega

instance : IsTrans RawMatch start_le := by
  constructor; intro a b c hab hbc; unfold start_le at *; omega

/-- The dedup-and-reorder phase of `detect_events`: stable sort by
(length descending, source priority), greedy non-overlap scan, then
stable re-sort by span start. -/
def resolve_overlaps (raws : List RawMatch) : List RawMatch :=
  List.insertionSort start_le (dedup_scan (List.insertionSort raw_le raws) [])

/-- `EventDetector.detect_events`: collect all raw matches and resolve
overlapping spans. -/
def detect_events (table : PatternTable) (text : List Nat) : List RawMatch :=
  resolve_overlaps (collect_raw_matches table text)

/-- Well-formedness of a compiled table on a text: every matcher yields
spans that lie within the document and satisfy start < end (the
Occurrence invariant of the data model; true of every word-boundary
keyword matcher, whose matches are nonempty words of the text). -/
def table_wf (table : PatternTable) (text : List Nat) : Prop :=
  ∀ p ∈ table, ∀ q ∈ p.2.patterns, ∀ sp ∈ q.find text,
    sp.1 < sp.2 ∧ sp.2 ≤ text.length

instance (table : PatternTable) (text : List Nat) :
    Decidable (table_wf table text) := by
  unfold table_wf; exact inferInstance

theorem dedup_scan_no_overlap_occ :
    ∀ (rs : List RawMatch) (occ : List (Nat × Nat)),
      ∀ r ∈ dedup_scan rs occ, ∀ k ∈ occ, ¬ spans_overlap r.match_span k := by
  intro rs
  induction rs with
  | nil => intro occ r hr; simp [dedup_scan] at hr
  | cons a rest ih =>
    intro occ r hr k hk
    by_cases hov : occ.any fun k => decide (spans_overlap a.match_span k)
    · rw [dedup_scan, if_pos hov] at hr
      exact ih occ r hr k hk
    · rw [dedup_scan, if_neg hov] at hr
      rcases List.mem_cons.mp hr with hr | hr
      · subst hr
        simp only [List.any_eq_true, decide_eq_true_eq, not_exists] at hov
        push_neg at hov
        exact hov k hk
      · exact ih (occ ++ [a.match_span]) r hr k (by simp [hk])

theorem dedup_scan_pairwise :
    ∀ (rs : List RawMatch) (occ : List (Nat × Nat)),
      List.Pairwise (fun a b => ¬ spans_overlap a.match_span b.match_span)
        (dedup_scan rs occ) := by
  intro rs
  induction rs with
  | nil => intro occ; simp [dedup_scan]
  | cons a rest ih =>
    intro occ
    by_cases hov : occ.any fun k => decide (spans_overlap a.match_span k)
    · rw [dedup_scan, if_pos hov]; exact ih occ
    · rw [dedup_scan, if_neg hov]
      refine List.Pairwise.cons ?_ (ih (occ ++ [a.match_span]))
      intro b hb hcon
      have := dedup_scan_no_overlap_occ rest (occ ++ [a.match_span]) b hb
        a.match_span (by simp)
      exact this (spans_overlap_symm hcon)

theorem collect_raw_matches_nil (table : PatternTable)
    (hwf : table_wf table []) : collect_raw_matches table [] = [] := by
  rw [List.eq_nil_iff_forall_not_mem]
  intro r hr
  unfold collect_raw_matches at hr
  simp only [List.mem_flatMap, List.mem_map] at hr
  obtain ⟨et, het, pat, hpat, sp, hsp, _⟩ := hr
  have := hwf et het pat hpat sp hsp
  simp at this
  omega

/-- C1: for every input text and compiled pattern table (whose matchers
satisfy the Occurrence span invariant), the occurrence list returned by
`detect_events` contains no two occurrences with overlapping half-open
spans, is sorted by ascending span start, and is empty on empty input
text. -/
theorem detect_events_nonoverlap_sorted_empty
    (table : PatternTable) (text : List Nat) (hwf : table_wf table text) :
    List.Pairwise (fun a b => ¬ spans_overlap a.match_span b.match_span)
      (detect_events table text) ∧
    List.Sorted start_le (detect_events table text) ∧
    (text = [] → detect_events table text = []) := by
  refine ⟨?_, ?_, ?_⟩
  · unfold detect_events resolve_overlaps
    have hperm := List.perm_insertionSort start_le
      (dedup_scan (List.insertionSort raw_le (collect_raw_matches table text)) [])
    have hp := dedup_scan_pairwise
      (List.insertionSort raw_le (collect_raw_matches table text)) []
    exact (List.Perm.pairwise_iff
      (fun h => fun hc => h (spans_overlap_symm hc)) hperm).mpr hp
  · exact List.sorted_insertionSort start_le _
  · intro htext
    subst htext
    unfold detect_events resolve_overlaps
    rw [collect_raw_matches_nil table hwf]
    simp [List.insertionSort, dedup_scan]

/-- A sample matcher playing the role of a compiled keyword regex in
witnesses: on a text of length at least 6 it reports spans (0,3),
(2,6) and (4,6). -/
def sample_find (text : List Nat) : List (Nat × Nat) :=
  if 6 ≤ text.length then [(0, 3), (2, 6), (4, 6)] else []

/-- A sample compiled pattern table for witnesses. -/
def sample_table : PatternTable :=
  [("product_recall",
    { patterns := [{ find := sample_find, source := "keyword" }]
      T_star_days := some 90
      event_nature := some "operational"
      likely_triggers := ["defect"]
      description := none
      confidence_interval := none })]

/-- Code points of the sample text "recall". -/
def sample_text : List Nat := [114, 101, 99, 97, 108, 108]

theorem detect_events_nonoverlap_sorted_empty_witness :
    table_wf sample_table sample_text ∧
    (List.Pairwise (fun a b => ¬ spans_overlap a.match_span b.match_span)
      (detect_events sample_table sample_text) ∧
    List.Sorted start_le (detect_events sample_table sample_text) ∧
    (sample_text = [] → detect_events sample_table sample_text = [])) :=
  ⟨by decide,
    detect_events_nonoverlap_sorted_empty sample_table sample_text (by decide)⟩

theorem resolve_overlaps_pair {a b : RawMatch} (hab : raw_le a b)
    (hba : ¬ raw_le b a) (hov : spans_overlap a.match_span b.match_span) :
    resolve_overlaps [a, b] = [a] ∧ resolve_overlaps [b, a] = [a] := by
  have hov' : spans_overlap b.match_span a.match_span := spans_overlap_symm hov
  have h1 : List.insertionSort raw_le [a, b] = [a, b] := by
    simp [List.insertionSort, List.orderedInsert, if_pos hab]
  have h2 : List.insertionSort raw_le [b, a] = [a, b] := by
    simp [List.insertionSort, List.orderedInsert, if_neg hba]
  have h3 : dedup_scan [a, b] [] = [a] := by
    rw [dedup_scan, if_neg (by simp)]
    simp only [List.nil_append]
    rw [dedup_scan, if_pos (by simp [hov']), dedup_scan]
  have h4 : List.insertionSort start_le [a] = [a] := by
    simp [List.insertionSort, List.orderedInsert]
  constructor
  · unfold resolve_overlaps
    rw [h1, h3, h4]
  · unfold resolve_overlaps
    rw [h2, h3, h4]

/-- C6: for a pair of equal-length overlapping candidate matches, one of
explicit (regex) origin and one of keyword origin, the overlap
resolution of `detect_events` keeps the explicit-origin one (in either
collection order). -/
theorem detect_tie_break_explicit (a b : RawMatch)
    (hlen : match_len a = match_len b)
    (ha : a.pattern_source = "regex") (hb : b.pattern_source = "keyword")
    (hov : spans_overlap a.match_span b.match_span) :
    resolve_overlaps [a, b] = [a] ∧ resolve_overlaps [b, a] = [a] := by
  apply resolve_overlaps_pair
  · right
    refine ⟨hlen, ?_⟩
    rw [ha, hb]
    decide
  · intro h
    unfold raw_le at h
    rw [ha, hb] at h
    simp [source_priority] at h
    omega
  · exact hov

/-- Code points of "lawsuit filed". -/
def c6_text : List Nat := [108, 97, 119, 115, 117, 105, 116, 32, 102, 105, 108, 101, 100]

/-- A sample explicit-origin raw match for the C6 witness. -/
def c6_a : RawMatch :=
  { event_type := "litigation", T_star_days := some 180, event_nature := none
    likely_triggers := [], description := none, confidence_interval := none
    match_text := c6_text.take 7, match_span := (0, 7), pattern_source := "regex" }

/-- A sample keyword-origin raw match for the C6 witness. -/
def c6_b : RawMatch :=
  { event_type := "litigation", T_star_days := some 180, event_nature := none
    likely_triggers := [], description := none, confidence_interval := none
    match_text := (c6_text.drop 3).take 7, match_span := (3, 10)
    pattern_source := "keyword" }

theorem detect_tie_break_explicit_witness :
    (match_len c6_a = match_len c6_b ∧ c6_a.pattern_source = "regex" ∧
      c6_b.pattern_source = "keyword" ∧
      spans_overlap c6_a.match_span c6_b.match_span) ∧
    (resolve_overlaps [c6_a, c6_b] = [c6_a] ∧
      resolve_overlaps [c6_b, c6_a] = [c6_a]) :=
  ⟨by decide,
    detect_tie_break_explicit c6_a c6_b (by decide) (by decide) (by decide)
      (by decide)⟩

/-- C7: for a pair of overlapping candidate matches of different span
lengths covering a common position, the overlap resolution of
`detect_events` keeps the longer one, regardless of origin (in either
collection order). -/
theorem detect_longest_match (a b : RawMatch) (p : Nat)
    (hlen : match_len b < match_len a)
    (hpa : a.match_span.1 ≤ p ∧ p < a.match_span.2)
    (hpb : b.match_span.1 ≤ p ∧ p < b.match_span.2) :
    resolve_overlaps [a, b] = [a] ∧ resolve_overlaps [b, a] = [a] := by
  apply resolve_overlaps_pair
  · exact Or.inl hlen
  · intro h
    unfold raw_le at h
    omega
  · unfold spans_overlap
    omega

/-- A sample long keyword-origin raw match for the C7 witness. -/
def c7_a : RawMatch :=
  { event_type := "recall", T_star_days := some 90, event_nature := none
    likely_triggers := [], description := none, confidence_interval := none
    match_text := c6_text.take 10, match_span := (0, 10)
    pattern_source := "keyword" }

/-- A sample short explicit-origin raw match for the C7 witness. -/
def c7_b : RawMatch :=
  { event_type := "recall", T_star_days := some 90, event_nature := none
    likely_triggers := [], description := none, confidence_interval := none
    match_text := (c6_text.drop 4).take 4, match_span := (4, 8)
    pattern_source := "regex" }

theorem detect_longest_match_witness :
    (match_len c7_b < match_len c7_a ∧
      (c7_a.match_span.1 ≤ 5 ∧ 5 < c7_a.match_span.2) ∧
      (c7_b.match_span.1 ≤ 5 ∧ 5 < c7_b.match_span.2)) ∧
    (resolve_overlaps [c7_a, c7_b] = [c7_a] ∧
      resolve_overlaps [c7_b, c7_a] = [c7_a]) :=
  ⟨by decide,
    detect_longest_match c7_a c7_b 5 (by decide) (by decide) (by decide)⟩

/-! ### Character classes and calendar arithmetic -/

/-- ASCII decimal digit (regex `\d` on the ASCII range). -/
def isDigitCh (c : Nat) : Bool := decide (48 ≤ c ∧ c ≤ 57)

/-- ASCII letter (regex `[A-Za-z]`). -/
def isAlphaCh (c : Nat) : Bool :=
  decide ((65 ≤ c ∧ c ≤ 90) ∨ (97 ≤ c ∧ c ≤ 122))

/-- ASCII whitespace (regex `\s` on the ASCII range). -/
def isSpaceCh (c : Nat) : Bool :=
  decide (c = 32 ∨ c = 9 ∨ c = 10 ∨ c = 13 ∨ c = 11 ∨ c = 12)

/-- Python `str.lower` on one ASCII code point. -/
def pyLowerCh (c : Nat) : Nat := if 65 ≤ c ∧ c ≤ 90 then c + 32 else c

/-- Python `str.lower` on the ASCII range. -/
def pyLower (l : List Nat) : List Nat := l.map pyLowerCh

/-- Code points of a string literal. -/
def codes (s : String) : List Nat := s.data.map Char.toNat

/-- Gregorian leap-year rule, as in Python `datetime`. -/
def isLeapYear (y : Nat) : Bool :=
  y % 4 == 0 && (y % 100 != 0 || y % 400 == 0)

/-- Length of a month, as validated by Python `datetime.date`. -/
def daysInMonth (y m : Nat) : Nat :=
  if m = 2 then (if isLeapYear y then 29 else 28)
  else if m = 4 ∨ m = 6 ∨ m = 9 ∨ m = 11 then 30 else 31

/-- Day number of a calendar date (rata die, epoch 1970-01-01), the
standard civil-from-date conversion; Python date ordering and timedelta
arithmetic coincide with integer arithmetic on this representation. -/
def rataDie (y m d : Nat) : Int :=
  let yy : Int := if m ≤ 2 then (y : Int) - 1 else (y : Int)
  let era : Int := yy.fdiv 400
  let yoe : Int := yy - era * 400
  let mp : Int := ((m : Int) + 9) % 12
  let doy : Int := (153 * mp + 2).fdiv 5 + (d : Int) - 1
  let doe : Int := yoe * 365 + yoe.fdiv 4 - yoe.fdiv 100 + doy
  era * 146097 + doe - 719468

/-! ### Date-candidate extraction (`_find_dates_in_text` in `api.py`)

The three date regexes are modelled concretely with Python `re`
leftmost / greedy / backtracking match semantics, and the `strptime`
format attempts are modelled by the value conditions under which one of
the attempted formats accepts the matched slice. -/

/-- Numeric value of a digit string. -/
def natOfDigits (l : List Nat) : Nat :=
  l.foldl (fun acc c => acc * 10 + (c - 48)) 0

/-- Exactly `n` digits are present at offset `i`. -/
def hasDigits (l : List Nat) (i n : Nat) : Bool :=
  decide (i + n ≤ l.length) && ((l.drop i).take n).all isDigitCh

/-- The code point at offset `i` is `c`. -/
def chAt (l : List Nat) (i c : Nat) : Bool := l.get? i == some c

/-- Length of the run of characters satisfying `p` at the head. -/
def countLeading (p : Nat → Bool) : List Nat → Nat
  | [] => 0
  | c :: rest => if p c then countLeading p rest + 1 else 0

/-- The fixed-shape regex `\d{4}-\d{2}-\d{2}` matches at the head. -/
def isoAt (l : List Nat) : Bool :=
  hasDigits l 0 4 && chAt l 4 45 && hasDigits l 5 2 && chAt l 7 45 &&
    hasDigits l 8 2

/-- `finditer` scan for the ISO date regex: leftmost matches, resuming
after each match end (the third argument counts positions still to be
skipped because they are covered by the previous match). -/
def isoScan : List Nat → Nat → Nat → List (Nat × Nat)
  | [], _, _ => []
  | _ :: tail, pos, skip + 1 => isoScan tail (pos + 1) skip
  | l@(_ :: tail), pos, 0 =>
    if isoAt l then (pos, pos + 10) :: isoScan tail (pos + 1) 9
    else isoScan tail (pos + 1) 0

/-- One backtracking alternative of `\d{1,2}/\d{1,2}/\d{2,4}`: exactly
`m` month digits, a slash, `d` day digits, a slash, `y` year digits. -/
def slashCheck (l : List Nat) (m d y : Nat) : Bool :=
  hasDigits l 0 m && chAt l m 47 && hasDigits l (m + 1) d &&
    chAt l (m + 1 + d) 47 && hasDigits l (m + d + 2) y

/-- The greedy backtracking order of `\d{1,2}/\d{1,2}/\d{2,4}`. -/
def slashCombos : List (Nat × Nat × Nat) :=
  [(2,2,4),(2,2,3),(2,2,2),(2,1,4),(2,1,3),(2,1,2),
   (1,2,4),(1,2,3),(1,2,2),(1,1,4),(1,1,3),(1,1,2)]

/-- Match length of `\d{1,2}/\d{1,2}/\d{2,4}` at the head, if any. -/
def trySlash (l : List Nat) : Option Nat :=
  (slashCombos.find? fun c => slashCheck l c.1 c.2.1 c.2.2).map
    fun c => c.1 + c.2.1 + c.2.2 + 2

/-- `finditer` scan for the slash date regex (same skip-counter style
as `isoScan`). -/
def slashScan : List Nat → Nat → Nat → List (Nat × Nat)
  | [], _, _ => []
  | _ :: tail, pos, skip + 1 => slashScan tail (pos + 1) skip
  | l@(_ :: tail), pos, 0 =>
    match trySlash l with
    | some len => (pos, pos + len) :: slashScan tail (pos + 1) (len - 1)
    | none => slashScan tail (pos + 1) 0

/-- Tail of the spelled-month regex after the day digits: `,?\s+\d{4}`
with the greedy comma alternative first; returns the consumed length. -/
def monthAfterDay (l : List Nat) : Option Nat :=
  let withComma : Option Nat :=
    if chAt l 0 44 then
      let ws2 := countLeading isSpaceCh (l.drop 1)
      if ws2 = 0 then none
      else if hasDigits l (1 + ws2) 4 then some (1 + ws2 + 4) else none
    else none
  match withComma with
  | some n => some n
  | none =>
    let ws2 := countLeading isSpaceCh l
    if ws2 = 0 then none
    else if hasDigits l ws2 4 then some (ws2 + 4) else none

/-- One backtracking alternative of
`[A-Za-z]{3,9}\s+\d{1,2},?\s+\d{4}` with exactly `L` leading letters;
the day digits are tried greedily (2 then 1). -/
def monthCheck (l : List Nat) (L : Nat) : Option Nat :=
  if decide (L ≤ l.length) && (l.take L).all isAlphaCh then
    let l2 := l.drop L
    let ws1 := countLeading isSpaceCh l2
    if ws1 = 0 then none
    else
      let l3 := l2.drop ws1
      let day2 : Option Nat :=
        if hasDigits l3 0 2 then (monthAfterDay (l3.drop 2)).map (fun n => 2 + n)
        else none
      match day2 with
      | some n => some (L + ws1 + n)
      | none =>
        if hasDigits l3 0 1 then
          (monthAfterDay (l3.drop 1)).map fun n => L + ws1 + 1 + n
        else none
  else none

/-- Match length of the spelled-month regex at the head, if any; the
letter count is tried greedily from 9 down to 3. -/
def tryMonth (l : List Nat) : Option Nat :=
  (([9,8,7,6,5,4,3] : List Nat).filterMap fun L => monthCheck l L).head?

/-- `finditer` scan for the spelled-month date regex (same skip-counter
style as `isoScan`). -/
def monthScan : List Nat → Nat → Nat → List (Nat × Nat)
  | [], _, _ => []
  | _ :: tail, pos, skip + 1 => monthScan tail (pos + 1) skip
  | l@(_ :: tail), pos, 0 =>
    match tryMonth l with
    | some len => (pos, pos + len) :: monthScan tail (pos + 1) (len - 1)
    | none => monthScan tail (pos + 1) 0

/-- `strptime` acceptance of an ISO-regex slice with format `%Y-%m-%d`:
value-valid year, month and day. -/
def parseISOslice (s : List Nat) : Option Int :=
  let y := natOfDigits (s.take 4)
  let m := natOfDigits ((s.drop 5).take 2)
  let d := natOfDigits ((s.drop 8).take 2)
  if 1 ≤ y ∧ 1 ≤ m ∧ m ≤ 12 ∧ 1 ≤ d ∧ d ≤ daysInMonth y m then
    some (rataDie y m d)
  else none

/-- `strptime` acceptance of a slash-regex slice with formats
`%m/%d/%Y` then `%m/%d/%y`: a 4-digit year parses as is, a 2-digit year
maps 0-68 to 2000+ and 69-99 to 1900+, a 3-digit year fails both. -/
def parseSlashSlice (s : List Nat) : Option Int :=
  let mdigits := s.takeWhile isDigitCh
  let rest1 := (s.drop mdigits.length).drop 1
  let ddigits := rest1.takeWhile isDigitCh
  let ydigits := rest1.drop (ddigits.length + 1)
  let m := natOfDigits mdigits
  let d := natOfDigits ddigits
  let y? : Option Nat :=
    if ydigits.length = 4 then
      if 1 ≤ natOfDigits ydigits then some (natOfDigits ydigits) else none
    else if ydigits.length = 2 then
      some (if natOfDigits ydigits ≤ 68 then 2000 + natOfDigits ydigits
            else 1900 + natOfDigits ydigits)
    else none
  match y? with
  | none => none
  | some y =>
    if 1 ≤ m ∧ m ≤ 12 ∧ 1 ≤ d ∧ d ≤ daysInMonth y m then
      some (rataDie y m d)
    else none

/-- Month names accepted by `strptime` `%B` (full) and `%b`
(abbreviated), lowercased; `strptime` name matching is
case-insensitive. -/
def monthNames : List (List Nat × Nat) :=
  [(codes "january", 1), (codes "february", 2), (codes "march", 3),
   (codes "april", 4), (codes "may", 5), (codes "june", 6),
   (codes "july", 7), (codes "august", 8), (codes "september", 9),
   (codes "october", 10), (codes "november", 11), (codes "december", 12),
   (codes "jan", 1), (codes "feb", 2), (codes "mar", 3), (codes "apr", 4),
   (codes "jun", 6), (codes "jul", 7), (codes "aug", 8), (codes "sep", 9),
   (codes "oct", 10), (codes "nov", 11), (codes "dec", 12)]

/-- `strptime` acceptance of a spelled-month-regex slice with the
formats `%B %d, %Y`, `%b %d, %Y`, `%B %d %Y`, `%b %d %Y`: the letter
run must be exactly a month name (else the whitespace literal fails on
the leftover letters), and year and day must be value-valid. -/
def parseMonthSlice (s : List Nat) : Option Int :=
  let letters := s.takeWhile isAlphaCh
  let r1 := s.drop letters.length
  let r2 := r1.drop (countLeading isSpaceCh r1)
  let ddigits := r2.takeWhile isDigitCh
  let r3 := r2.drop ddigits.length
  let r4 := if chAt r3 0 44 then r3.drop 1 else r3
  let r5 := r4.drop (countLeading isSpaceCh r4)
  let ydigits := r5.take 4
  match monthNames.find? fun p => p.1 == pyLower letters with
  | none => none
  | some p =>
    let m := p.2
    let d := natOfDigits ddigits
    let y := natOfDigits ydigits
    if 1 ≤ y ∧ 1 ≤ d ∧ d ≤ daysInMonth y m then some (rataDie y m d)
    else none

/-- The slice of a text under a half-open span. -/
def slice (text : List Nat) (sp : Nat × Nat) : List Nat :=
  (text.drop sp.1).take (sp.2 - sp.1)

/-- `_find_dates_in_text`: all ISO candidates in document order, then
all slash candidates, then all spelled-month candidates; each candidate
is (date, span start, span end), and unparsable slices are skipped. -/
def find_dates_in_text (text : List Nat) : List (Int × Nat × Nat) :=
  if text = [] then []
  else
    ((isoScan text 0 0).filterMap fun sp =>
      (parseISOslice (slice text sp)).map fun d => (d, sp.1, sp.2)) ++
    ((slashScan text 0 0).filterMap fun sp =>
      (parseSlashSlice (slice text sp)).map fun d => (d, sp.1, sp.2)) ++
    ((monthScan text 0 0).filterMap fun sp =>
      (parseMonthSlice (slice text sp)).map fun d => (d, sp.1, sp.2))

/-- `datetime.strptime(s, "%Y-%m-%d")` on a whole string (used for the
filing date); `ValueError` is modelled by `none`. -/
def parse_filing_date (s : String) : Option Int :=
  let l := codes s
  if decide (l.length = 10) && isoAt l then parseISOslice l else none

/-- Window-membership test of `_parse_date_nearest_to_span`:
`min_dt <= d <= max_dt` for `min_dt/max_dt = filing ∓ window` days. -/
def in_window (fd w : Int) (c : Int × Nat × Nat) : Bool :=
  decide (fd - w ≤ c.1 ∧ c.1 ≤ fd + w)

/-- The candidate list over which `_parse_date_nearest_to_span` runs
its nearest-selection loop, with the early `return None` paths of the
source (empty text, no candidates, window filter emptied the list)
modelled as `none`; an unparsable filing date (`ValueError`) leaves the
candidates unfiltered. -/
def date_candidates_for (text : List Nat) (filing_date : String)
    (window_days : Int) : Option (List (Int × Nat × Nat)) :=
  if text = [] then none
  else if find_dates_in_text text = [] then none
  else if filing_date ≠ "" then
    match parse_filing_date filing_date with
    | some fd =>
      if (find_dates_in_text text).filter (in_window fd window_days) = [] then none
      else some ((find_dates_in_text text).filter (in_window fd window_days))
    | none => some (find_dates_in_text text)
  else some (find_dates_in_text text)

/-- Doubled midpoint of a span: the source computes the float
`(start + end) / 2`; doubling keeps the arithmetic in integers and
preserves every comparison the source makes. -/
def span_center2 (sp : Nat × Nat) : Int := (sp.1 : Int) + sp.2

/-- Doubled distance from a candidate span midpoint to the occurrence
span midpoint. -/
def candDist2 (center2 : Int) (c : Int × Nat × Nat) : Nat :=
  ((c.2.1 : Int) + (c.2.2 : Int) - center2).natAbs

/-- The nearest-selection loop of `_parse_date_nearest_to_span`: keep
the first candidate whose distance strictly improves on the best so
far. -/
def selectNearestGo (center2 : Int) :
    List (Int × Nat × Nat) → Option (Int × Nat) → Option Int
  | [], best => best.map Prod.fst
  | c :: rest, none =>
    selectNearestGo center2 rest (some (c.1, candDist2 center2 c))
  | c :: rest, some best =>
    if candDist2 center2 c < best.2 then
      selectNearestGo center2 rest (some (c.1, candDist2 center2 c))
    else
      selectNearestGo center2 rest (some best)

/-- `_parse_date_nearest_to_span`. -/
def parse_date_nearest_to_span (text : List Nat) (span : Nat × Nat)
    (filing_date : String) (window_days : Int) : Option Int :=
  match date_candidates_for text filing_date window_days with
  | none => none
  | some cands => selectNearestGo (span_center2 span) cands none

/-- The event-start resolution of the enrichment loop in
`analyze_ticker`: the nearest in-window document date, else the filing
date itself when present and parsable. -/
def resolve_event_start (text : List Nat) (span : Nat × Nat)
    (filing_date : String) (window_days : Int) : Option Int :=
  match parse_date_nearest_to_span text span filing_date window_days with
  | some d => some d
  | none =>
    if filing_date ≠ "N/A" then parse_filing_date filing_date else none

/-- The temporal fields set on one enriched event. -/
structure EnrichedTimes where
  event_started_on : Option Int
  event_ends_on : Option Int
  days_remaining : Option Int
  time_relation : String
deriving DecidableEq

/-- The temporal enrichment of one occurrence in `analyze_ticker`: all
fields start absent with relation `"unknown"`; when a start was
resolved, `int(T_star_days)` is computed first, so an absent `T*`
raises and leaves every field absent (the `except` path); otherwise
start, end, days remaining and the relation are set. -/
def enrich_times (today : Int) (T_star : Option Int)
    (event_start : Option Int) : EnrichedTimes :=
  match event_start with
  | none => ⟨none, none, none, "unknown"⟩
  | some s =>
    match T_star with
    | none => ⟨none, none, none, "unknown"⟩
    | some t =>
      let e := s + t
      ⟨some s, some e, some (e - today),
        if e < today then "past" else if today < s then "future" else "ongoing"⟩

/-- Enrichment of one detected occurrence (lines 135-175 of `api.py`,
minus the trigger sentence, which no claim concerns). -/
def enrich_event (text : List Nat) (today : Int) (filing_date : String)
    (window_days : Int) (ev : RawMatch) : EnrichedTimes :=
  enrich_times today ev.T_star_days
    (resolve_event_start text ev.match_span filing_date window_days)

theorem selectNearestGo_nil (center : Int) (best : Option (Int × Nat)) :
    selectNearestGo center [] best = best.map Prod.fst := by
  cases best <;> rfl

theorem selectNearestGo_cons_none (center : Int) (c : Int × Nat × Nat)
    (rest : List (Int × Nat × Nat)) :
    selectNearestGo center (c :: rest) none =
      selectNearestGo center rest (some (c.1, candDist2 center c)) := rfl

theorem selectNearestGo_cons_some (center : Int) (c : Int × Nat × Nat)
    (rest : List (Int × Nat × Nat)) (best : Int × Nat) :
    selectNearestGo center (c :: rest) (some best) =
      if candDist2 center c < best.2 then
        selectNearestGo center rest (some (c.1, candDist2 center c))
      else selectNearestGo center rest (some best) := rfl

theorem get_cons_zero_eq {α : Type} (c : α) (rest : List α)
    (h : 0 < (c :: rest).length) : (c :: rest).get ⟨0, h⟩ = c := rfl

theorem get_cons_succ_eq {α : Type} (c : α) (rest : List α) (j : Nat)
    (h : j + 1 < (c :: rest).length) :
    (c :: rest).get ⟨j + 1, h⟩ = rest.get ⟨j, Nat.lt_of_succ_lt_succ h⟩ := rfl

theorem selectNearestGo_mem (center : Int) :
    ∀ (l : List (Int × Nat × Nat)) (acc : Option (Int × Nat)) (d : Int),
      selectNearestGo center l acc = some d →
      (∃ c ∈ l, c.1 = d) ∨ (∃ p, acc = some p ∧ p.1 = d) := by
  intro l
  induction l with
  | nil =>
    intro acc d h
    cases acc with
    | none => simp [selectNearestGo_nil] at h
    | some p =>
      right
      refine ⟨p, rfl, ?_⟩
      simpa [selectNearestGo_nil] using h
  | cons c rest ih =>
    intro acc d h
    cases acc with
    | none =>
      rw [selectNearestGo_cons_none] at h
      rcases ih _ _ h with ⟨c', hc', hd⟩ | ⟨p, hp, hd⟩
      · exact Or.inl ⟨c', List.mem_cons_of_mem c hc', hd⟩
      · left
        refine ⟨c, List.mem_cons_self c rest, ?_⟩
        injection hp with hp
        rw [← hp] at hd
        exact hd
    | some best =>
      rw [selectNearestGo_cons_some] at h
      by_cases hlt : candDist2 center c < best.2
      · rw [if_pos hlt] at h
        rcases ih _ _ h with ⟨c', hc', hd⟩ | ⟨p, hp, hd⟩
        · exact Or.inl ⟨c', List.mem_cons_of_mem c hc', hd⟩
        · left
          refine ⟨c, List.mem_cons_self c rest, ?_⟩
          injection hp with hp
          rw [← hp] at hd
          exact hd
      · rw [if_neg hlt] at h
        rcases ih _ _ h with ⟨c', hc', hd⟩ | ⟨p, hp, hd⟩
        · exact Or.inl ⟨c', List.mem_cons_of_mem c hc', hd⟩
        · right
          injection hp with hp
          rw [← hp] at hd
          exact ⟨best, rfl, hd⟩

theorem selectNearestGo_argmin (center : Int) :
    ∀ (l : List (Int × Nat × Nat)) (b : Int) (bd : Nat),
      (selectNearestGo center l (some (b, bd)) = some b ∧
        ∀ c ∈ l, bd ≤ candDist2 center c) ∨
      (∃ k, ∃ hk : k < l.length,
        selectNearestGo center l (some (b, bd)) = some (l.get ⟨k, hk⟩).1 ∧
        candDist2 center (l.get ⟨k, hk⟩) < bd ∧
        (∀ j, ∀ hj : j < l.length,
          candDist2 center (l.get ⟨k, hk⟩) ≤ candDist2 center (l.get ⟨j, hj⟩)) ∧
        (∀ j, ∀ hj : j < l.length, j < k →
          candDist2 center (l.get ⟨k, hk⟩) < candDist2 center (l.get ⟨j, hj⟩))) := by
  intro l
  induction l with
  | nil =>
    intro b bd
    left
    constructor
    · simp [selectNearestGo]
    · intro c hc; simp at hc
  | cons c rest ih =>
    intro b bd
    rw [selectNearestGo_cons_some]
    by_cases hlt : candDist2 center c < bd
    · rw [if_pos hlt]
      rcases ih c.1 (candDist2 center c) with ⟨he, hall⟩ | ⟨k, hk, he, hkd, hall, hstrict⟩
      · right
        refine ⟨0, by simp, ?_, ?_, ?_, ?_⟩
        · exact he
        · exact hlt
        · intro j hj
          cases j with
          | zero => exact Nat.le_refl _
          | succ j' =>
            rw [get_cons_zero_eq, get_cons_succ_eq]
            exact hall _ (List.get_mem rest _ _)
        · intro j hj hj0
          exact absurd hj0 (Nat.not_lt_zero j)
      · right
        refine ⟨k + 1, by simpa using hk, ?_, ?_, ?_, ?_⟩
        · rw [get_cons_succ_eq]
          exact he
        · rw [get_cons_succ_eq]
          exact Nat.lt_trans hkd hlt
        · intro j hj
          cases j with
          | zero =>
            rw [get_cons_succ_eq, get_cons_zero_eq]
            exact Nat.le_of_lt hkd
          | succ j' =>
            rw [get_cons_succ_eq, get_cons_succ_eq]
            exact hall j' _
        · intro j hj hjk
          cases j with
          | zero =>
            rw [get_cons_succ_eq, get_cons_zero_eq]
            exact hkd
          | succ j' =>
            rw [get_cons_succ_eq, get_cons_succ_eq]
            exact hstrict j' _ (by omega)
    · rw [if_neg hlt]
      rcases ih b bd with ⟨he, hall⟩ | ⟨k, hk, he, hkd, hall, hstrict⟩
      · left
        refine ⟨he, ?_⟩
        intro c' hc'
        rcases List.mem_cons.mp hc' with h | h
        · subst h; omega
        · exact hall c' h
      · right
        refine ⟨k + 1, by simpa using hk, ?_, ?_, ?_, ?_⟩
        · rw [get_cons_succ_eq]
          exact he
        · rw [get_cons_succ_eq]
          exact hkd
        · intro j hj
          cases j with
          | zero =>
            rw [get_cons_succ_eq, get_cons_zero_eq]
            omega
          | succ j' =>
            rw [get_cons_succ_eq, get_cons_succ_eq]
            exact hall j' _
        · intro j hj hjk
          cases j with
          | zero =>
            rw [get_cons_succ_eq, get_cons_zero_eq]
            omega
          | succ j' =>
            rw [get_cons_succ_eq, get_cons_succ_eq]
            exact hstrict j' _ (by omega)

theorem date_candidates_for_spec (text : List Nat) (filing_date : String)
    (window_days : Int) (cands : List (Int × Nat × Nat))
    (h : date_candidates_for text filing_date window_days = some cands) :
    cands ≠ [] ∧
    (∀ fdRD, filing_date ≠ "" → parse_filing_date filing_date = some fdRD →
      cands = (find_dates_in_text text).filter (in_window fdRD window_days)) := by
  unfold date_candidates_for at h
  by_cases ht : text = []
  · rw [if_pos ht] at h; exact absurd h (by simp)
  · rw [if_neg ht] at h
    by_cases hc : find_dates_in_text text = []
    · rw [if_pos hc] at h; exact absurd h (by simp)
    · rw [if_neg hc] at h
      by_cases hfd : filing_date ≠ ""
      · rw [if_pos hfd] at h
        cases hp : parse_filing_date filing_date with
        | none =>
          rw [hp] at h
          have h2 : some (find_dates_in_text text) = some cands := h
          injection h2 with h2
          subst h2
          refine ⟨hc, ?_⟩
          intro fdRD _ hp'
          exact absurd hp' (by simp)
        | some fd =>
          rw [hp] at h
          have h2 : (if (find_dates_in_text text).filter (in_window fd window_days) = []
              then none
              else some ((find_dates_in_text text).filter (in_window fd window_days))) =
              some cands := h
          by_cases hflt : (find_dates_in_text text).filter (in_window fd window_days) = []
          · rw [if_pos hflt] at h2; exact absurd h2 (by simp)
          · rw [if_neg hflt] at h2
            injection h2 with h2
            subst h2
            refine ⟨hflt, ?_⟩
            intro fdRD _ hp'
            injection hp' with hp'
            rw [hp']
      · rw [if_neg hfd] at h
        injection h with h
        subst h
        exact ⟨hc, fun fdRD hne _ => absurd hne hfd⟩

/-- C2 (amended): whenever the candidate list survives the guards of
`_parse_date_nearest_to_span` (nonempty document, at least one
candidate, window filter not emptied), the chosen date is the candidate
at the first position of the candidate list attaining the minimal
midpoint distance to the occurrence span; the candidate list is the
extraction order of `_find_dates_in_text` (all ISO candidates first,
then slash-delimited, then spelled-month, each group in document
order), not the document order. -/
theorem parse_date_nearest_first_minimizer (text : List Nat)
    (span : Nat × Nat) (filing_date : String) (window_days : Int)
    (cands : List (Int × Nat × Nat))
    (h : date_candidates_for text filing_date window_days = some cands) :
    ∃ k, ∃ hk : k < cands.length,
      parse_date_nearest_to_span text span filing_date window_days =
        some (cands.get ⟨k, hk⟩).1 ∧
      (∀ j, ∀ hj : j < cands.length,
        candDist2 (span_center2 span) (cands.get ⟨k, hk⟩) ≤
          candDist2 (span_center2 span) (cands.get ⟨j, hj⟩)) ∧
      (∀ j, ∀ hj : j < cands.length, j < k →
        candDist2 (span_center2 span) (cands.get ⟨k, hk⟩) <
          candDist2 (span_center2 span) (cands.get ⟨j, hj⟩)) := by
  have hne := (date_candidates_for_spec text filing_date window_days cands h).1
  have hsel : parse_date_nearest_to_span text span filing_date window_days =
      selectNearestGo (span_center2 span) cands none := by
    unfold parse_date_nearest_to_span
    rw [h]
  rw [hsel]
  cases cands with
  | nil => exact absurd rfl hne
  | cons c rest =>
    rw [selectNearestGo_cons_none]
    rcases selectNearestGo_argmin (span_center2 span) rest c.1
        (candDist2 (span_center2 span) c) with
      ⟨he, hall⟩ | ⟨k, hk, he, hkd, hall, hstrict⟩
    · refine ⟨0, by simp, he, ?_, ?_⟩
      · intro j hj
        cases j with
        | zero => exact Nat.le_refl _
        | succ j' =>
          rw [get_cons_zero_eq, get_cons_succ_eq]
          exact hall _ (List.get_mem rest _ _)
      · intro j hj hj0
        exact absurd hj0 (Nat.not_lt_zero j)
    · refine ⟨k + 1, by simpa using hk, ?_, ?_, ?_⟩
      · rw [get_cons_succ_eq]
        exact he
      · intro j hj
        cases j with
        | zero =>
          rw [get_cons_succ_eq, get_cons_zero_eq]
          exact Nat.le_of_lt hkd
        | succ j' =>
          rw [get_cons_succ_eq, get_cons_succ_eq]
          exact hall j' _
      · intro j hj hjk
        cases j with
        | zero =>
          rw [get_cons_succ_eq, get_cons_zero_eq]
          exact hkd
        | succ j' =>
          rw [get_cons_succ_eq, get_cons_succ_eq]
          exact hstrict j' _ (by omega)

/-- Code points of the text exhibiting the C2 tie-break: a slash date
at position 0 and an ISO date at position 19, equidistant from the
occurrence span (14, 15). -/
def c2_text : List Nat := codes "01/10/2023 xxxxxxx 2023-01-20"

/-- C2 counterexample: both candidates lie at doubled distance 19 from
the occurrence span (14, 15), the slash candidate (2023-01-10) appears
first in document order (position 0 versus position 19), yet the
resolver returns the ISO candidate (2023-01-20), because
`_find_dates_in_text` lists all ISO candidates before all slash
candidates; the claim as stated predicts 2023-01-10. -/
theorem parse_date_nearest_doc_order_counterexample :
    find_dates_in_text c2_text =
      [(rataDie 2023 1 20, 19, 29), (rataDie 2023 1 10, 0, 10)] ∧
    candDist2 (span_center2 (14, 15)) (rataDie 2023 1 20, 19, 29) =
      candDist2 (span_center2 (14, 15)) (rataDie 2023 1 10, 0, 10) ∧
    parse_date_nearest_to_span c2_text (14, 15) "N/A" 365 =
      some (rataDie 2023 1 20) ∧
    rataDie 2023 1 20 ≠ rataDie 2023 1 10 := by decide

theorem parse_date_nearest_first_minimizer_witness :
    date_candidates_for c2_text "N/A" 365 =
      some [(rataDie 2023 1 20, 19, 29), (rataDie 2023 1 10, 0, 10)] ∧
    (∃ k, ∃ hk : k <
        ([(rataDie 2023 1 20, 19, 29),
          (rataDie 2023 1 10, 0, 10)] : List (Int × Nat × Nat)).length,
      parse_date_nearest_to_span c2_text (14, 15) "N/A" 365 =
        some (([(rataDie 2023 1 20, 19, 29),
          (rataDie 2023 1 10, 0, 10)] : List (Int × Nat × Nat)).get ⟨k, hk⟩).1 ∧
      (∀ j, ∀ hj : j <
          ([(rataDie 2023 1 20, 19, 29),
            (rataDie 2023 1 10, 0, 10)] : List (Int × Nat × Nat)).length,
        candDist2 (span_center2 (14, 15))
            (([(rataDie 2023 1 20, 19, 29),
              (rataDie 2023 1 10, 0, 10)] : List (Int × Nat × Nat)).get ⟨k, hk⟩) ≤
          candDist2 (span_center2 (14, 15))
            (([(rataDie 2023 1 20, 19, 29),
              (rataDie 2023 1 10, 0, 10)] : List (Int × Nat × Nat)).get ⟨j, hj⟩)) ∧
      (∀ j, ∀ hj : j <
          ([(rataDie 2023 1 20, 19, 29),
            (rataDie 2023 1 10, 0, 10)] : List (Int × Nat × Nat)).length,
        j < k →
        candDist2 (span_center2 (14, 15))
            (([(rataDie 2023 1 20, 19, 29),
              (rataDie 2023 1 10, 0, 10)] : List (Int × Nat × Nat)).get ⟨k, hk⟩) <
          candDist2 (span_center2 (14, 15))
            (([(rataDie 2023 1 20, 19, 29),
              (rataDie 2023 1 10, 0, 10)] : List (Int × Nat × Nat)).get ⟨j, hj⟩))) :=
  ⟨by decide,
    parse_date_nearest_first_minimizer c2_text (14, 15) "N/A" 365 _ (by decide)⟩

/-- Code points of the C5 window-filtering text, with "2022-11-01" at
span (3, 13), "2023-01-15" at span (18, 28) and "recall" at (29, 35). -/
def c5_text : List Nat := codes "On 2022-11-01 and 2023-01-15 recall happened"

/-- C5: with a present, parsable filing date, any date chosen by
`_parse_date_nearest_to_span` lies within the window
[filing - windowDays, filing + windowDays]; if window filtering empties
the candidate set the resolver yields no start date from the document;
in that case the start resolution falls back to the filing date itself
(when parsable and not absent); and on the concrete example with
filingDate 2023-01-10 and windowDays 30, of the candidates 2022-11-01
and 2023-01-15 only 2023-01-15 survives filtering, and it is chosen. -/
theorem window_filter_spec :
    (∀ (text : List Nat) (span : Nat × Nat) (fd : String) (w fdRD d : Int),
      fd ≠ "" → parse_filing_date fd = some fdRD →
      parse_date_nearest_to_span text span fd w = some d →
      fdRD - w ≤ d ∧ d ≤ fdRD + w) ∧
    (∀ (text : List Nat) (span : Nat × Nat) (fd : String) (w fdRD : Int),
      fd ≠ "" → parse_filing_date fd = some fdRD →
      (find_dates_in_text text).filter (in_window fdRD w) = [] →
      parse_date_nearest_to_span text span fd w = none) ∧
    (∀ (text : List Nat) (span : Nat × Nat) (fd : String) (w : Int),
      parse_date_nearest_to_span text span fd w = none →
      resolve_event_start text span fd w =
        if fd ≠ "N/A" then parse_filing_date fd else none) ∧
    (find_dates_in_text c5_text =
        [(rataDie 2022 11 1, 3, 13), (rataDie 2023 1 15, 18, 28)] ∧
      (find_dates_in_text c5_text).filter (in_window (rataDie 2023 1 10) 30) =
        [(rataDie 2023 1 15, 18, 28)] ∧
      parse_date_nearest_to_span c5_text (29, 35) "2023-01-10" 30 =
        some (rataDie 2023 1 15)) := by
  refine ⟨?_, ?_, ?_, ?_⟩
  · intro text span fd w fdRD d hne hp h
    cases hdc : date_candidates_for text fd w with
    | none =>
      unfold parse_date_nearest_to_span at h
      rw [hdc] at h
      exact absurd ((rfl : (none : Option Int) = none) ▸ h) (by simp)
    | some cands =>
      unfold parse_date_nearest_to_span at h
      rw [hdc] at h
      have h2 : selectNearestGo (span_center2 span) cands none = some d := h
      rcases selectNearestGo_mem (span_center2 span) cands none d h2 with
        ⟨c, hcmem, hcd⟩ | ⟨p, hp', _⟩
      · have hcf :=
          (date_candidates_for_spec text fd w cands hdc).2 fdRD hne hp
        rw [hcf] at hcmem
        have hw := (List.mem_filter.mp hcmem).2
        unfold in_window at hw
        simp only [decide_eq_true_eq] at hw
        omega
      · exact absurd hp' (by simp)
  · intro text span fd w fdRD hne hp hflt
    cases hdc : date_candidates_for text fd w with
    | none =>
      unfold parse_date_nearest_to_span
      rw [hdc]
    | some cands =>
      have hspec := date_candidates_for_spec text fd w cands hdc
      have hcf := hspec.2 fdRD hne hp
      rw [hflt] at hcf
      exact absurd hcf hspec.1
  · intro text span fd w h
    unfold resolve_event_start
    rw [h]
  · refine ⟨by decide, by decide, by decide⟩

theorem window_filter_spec_witness :
    ("2023-01-10" : String) ≠ "" ∧
    parse_filing_date "2023-01-10" = some (rataDie 2023 1 10) ∧
    parse_date_nearest_to_span c5_text (29, 35) "2023-01-10" 30 =
      some (rataDie 2023 1 15) ∧
    (rataDie 2023 1 10 - 30 ≤ rataDie 2023 1 15 ∧
      rataDie 2023 1 15 ≤ rataDie 2023 1 10 + 30) :=
  ⟨by decide, by decide, by decide,
    window_filter_spec.1 c5_text (29, 35) "2023-01-10" 30 (rataDie 2023 1 10)
      (rataDie 2023 1 15) (by decide) (by decide) (by decide)⟩

/-- C3 (amended): when a start date was resolved and `T*` is known, the
enriched occurrence carries eventStartedOn = start, eventEndsOn =
start + T* days, daysRemaining = end - today and the relation
past / future / ongoing as coded; but when `T*` is absent, the
`int(None)` failure wipes the enrichment, so eventStartedOn and
eventEndsOn are absent and timeRelation is unknown even though a start
was resolved; hence timeRelation is unknown exactly when no start was
resolved or `T*` is absent. -/
theorem enrich_event_cases (text : List Nat) (today : Int)
    (filing_date : String) (window_days : Int) (ev : RawMatch) :
    (∀ s t, resolve_event_start text ev.match_span filing_date window_days = some s →
      ev.T_star_days = some t →
      enrich_event text today filing_date window_days ev =
        ⟨some s, some (s + t), some (s + t - today),
          if s + t < today then "past"
          else if today < s then "future" else "ongoing"⟩) ∧
    ((resolve_event_start text ev.match_span filing_date window_days = none ∨
        ev.T_star_days = none) →
      enrich_event text today filing_date window_days ev =
        ⟨none, none, none, "unknown"⟩) ∧
    ((enrich_event text today filing_date window_days ev).time_relation =
        "unknown" ↔
      (resolve_event_start text ev.match_span filing_date window_days = none ∨
        ev.T_star_days = none)) := by
  unfold enrich_event
  cases hr : resolve_event_start text ev.match_span filing_date window_days with
  | none =>
    refine ⟨?_, ?_, ?_⟩
    · intro s t hs ht
      exact absurd hs (by simp)
    · intro _
      simp [enrich_times]
    · simp [enrich_times]
  | some s =>
    cases hT : ev.T_star_days with
    | none =>
      refine ⟨?_, ?_, ?_⟩
      · intro s' t hs ht
        exact absurd ht (by simp)
      · intro _
        simp [enrich_times]
      · simp [enrich_times]
    | some t =>
      refine ⟨?_, ?_, ?_⟩
      · intro s' t' hs ht
        injection hs with hs
        injection ht with ht
        subst hs
        subst ht
        simp [enrich_times]
      · intro hcon
        rcases hcon with hcon | hcon <;> exact absurd hcon (by simp)
      · constructor
        · intro hcon
          simp only [enrich_times] at hcon
          split_ifs at hcon <;> simp_all
        · intro hcon
          rcases hcon with hcon | hcon <;> exact absurd hcon (by simp)

/-- Code points of the C3 text, with an ISO date at span (19, 29). -/
def c3_text : List Nat := codes "Recall happened on 2023-03-01 now"

/-- A detected occurrence of an event type whose configuration has no
`T_star_days` (the detector stores the key with value `None`). -/
def c3_ev : RawMatch :=
  { event_type := "product_recall", T_star_days := none, event_nature := none
    likely_triggers := [], description := none, confidence_interval := none
    match_text := c3_text.take 6, match_span := (0, 6)
    pattern_source := "keyword" }

/-- C3 counterexample: the start resolves to 2023-03-01, yet because
`T*` is absent the enriched occurrence has no eventStartedOn and its
timeRelation is unknown, contradicting both "eventStartedOn equal to
the resolved start date" and "timeRelation is unknown exactly when no
start date could be resolved". -/
theorem enrich_event_T_star_counterexample :
    resolve_event_start c3_text c3_ev.match_span "2023-03-01" 30 =
      some (rataDie 2023 3 1) ∧
    c3_ev.T_star_days = none ∧
    (enrich_event c3_text (rataDie 2023 3 15) "2023-03-01" 30 c3_ev).event_started_on
      = none ∧
    (enrich_event c3_text (rataDie 2023 3 15) "2023-03-01" 30 c3_ev).time_relation
      = "unknown" := by
  decide

/-- The same occurrence with `T_star_days` present (90 days), matching
the end-to-end scenario of the spec. -/
def c3_ev2 : RawMatch :=
  { event_type := "product_recall", T_star_days := some 90, event_nature := none
    likely_triggers := [], description := none, confidence_interval := none
    match_text := c3_text.take 6, match_span := (0, 6)
    pattern_source := "keyword" }

theorem enrich_event_cases_witness :
    resolve_event_start c3_text c3_ev2.match_span "2023-03-01" 30 =
      some (rataDie 2023 3 1) ∧
    c3_ev2.T_star_days = some 90 ∧
    enrich_event c3_text (rataDie 2023 3 15) "2023-03-01" 30 c3_ev2 =
      ⟨some (rataDie 2023 3 1), some (rataDie 2023 3 1 + 90),
        some (rataDie 2023 3 1 + 90 - rataDie 2023 3 15),
        if rataDie 2023 3 1 + 90 < rataDie 2023 3 15 then "past"
        else if rataDie 2023 3 15 < rataDie 2023 3 1 then "future"
        else "ongoing"⟩ :=
  ⟨by decide, by decide,
    (enrich_event_cases c3_text (rataDie 2023 3 15) "2023-03-01" 30 c3_ev2).1
      (rataDie 2023 3 1) 90 (by decide) (by decide)⟩

/-- The group-level time relation derivation of `analyze_ticker` (lines
237-245 of `api.py`): the members' relations are filtered for
truthiness, then future if any is future, else ongoing if any is
ongoing, else past if the list is nonempty and all are past, else
unknown. -/
def group_time_relation (sub_relations : List String) : String :=
  if (sub_relations.filter fun r => !(r == "")).any (fun r => r == "future") then
    "future"
  else if (sub_relations.filter fun r => !(r == "")).any (fun r => r == "ongoing") then
    "ongoing"
  else if !(sub_relations.filter fun r => !(r == "")).isEmpty &&
      (sub_relations.filter fun r => !(r == "")).all (fun r => r == "past") then
    "past"
  else "unknown"

/-- C4 counterexample: a group whose members have relations past and
unknown has no future and no ongoing member, so the claimed priority
would derive past; the code derives past only when all members are
past, and yields unknown here. -/
theorem group_time_relation_counterexample :
    group_time_relation ["past", "unknown"] = "unknown" ∧
    "past" ∈ (["past", "unknown"] : List String) ∧
    "future" ∉ (["past", "unknown"] : List String) ∧
    "ongoing" ∉ (["past", "unknown"] : List String) ∧
    ("unknown" : String) ≠ "past" := by
  decide

/-- C4 (amended): for a non-empty group whose members' relations take
the four coded values, the group relation is future if any member is
future, else ongoing if any member is ongoing, else past if all members
are past, else unknown. -/
theorem group_time_relation_priority (rels : List String) (hne : rels ≠ [])
    (hvals : ∀ r ∈ rels,
      r = "past" ∨ r = "ongoing" ∨ r = "future" ∨ r = "unknown") :
    group_time_relation rels =
      if "future" ∈ rels then "future"
      else if "ongoing" ∈ rels then "ongoing"
      else if ∀ r ∈ rels, r = "past" then "past"
      else "unknown" := by
  have hfilt : rels.filter (fun r => !(r == "")) = rels := by
    apply List.filter_eq_self.mpr
    intro r hr
    rcases hvals r hr with h | h | h | h <;> subst h <;> decide
  have hfut : ((rels.any fun r => r == "future") = true) ↔ "future" ∈ rels := by
    simp [List.any_eq_true]
  have hong : ((rels.any fun r => r == "ongoing") = true) ↔ "ongoing" ∈ rels := by
    simp [List.any_eq_true]
  have hpast : ((!rels.isEmpty && rels.all fun r => r == "past") = true) ↔
      (rels ≠ [] ∧ ∀ r ∈ rels, r = "past") := by
    simp [List.all_eq_true, List.isEmpty_iff]
  unfold group_time_relation
  rw [hfilt]
  by_cases hf : "future" ∈ rels
  · rw [if_pos (hfut.mpr hf), if_pos hf]
  · rw [if_neg (fun hcon => hf (hfut.mp hcon)), if_neg hf]
    by_cases ho : "ongoing" ∈ rels
    · rw [if_pos (hong.mpr ho), if_pos ho]
    · rw [if_neg (fun hcon => ho (hong.mp hcon)), if_neg ho]
      by_cases hp : ∀ r ∈ rels, r = "past"
      · rw [if_pos (hpast.mpr ⟨hne, hp⟩), if_pos hp]
      · rw [if_neg (fun hcon => hp (hpast.mp hcon).2), if_neg hp]

theorem group_time_relation_priority_witness :
    ((["past", "past"] : List String) ≠ []) ∧
    (∀ r ∈ (["past", "past"] : List String),
      r = "past" ∨ r = "ongoing" ∨ r = "future" ∨ r = "unknown") ∧
    group_time_relation ["past", "past"] =
      (if "future" ∈ (["past", "past"] : List String) then "future"
       else if "ongoing" ∈ (["past", "past"] : List String) then "ongoing"
       else if ∀ r ∈ (["past", "past"] : List String), r = "past" then "past"
       else "unknown") :=
  ⟨by decide, by decide,
    group_time_relation_priority ["past", "past"] (by decide) (by decide)⟩

/-! ### Risk sentence extractor (`risk_analyzer.py`)

The per-sentence loop of `find_dangerous_sentences` is modelled from
the segmentation output onward: the `sentences` parameter is the result
of `_split_into_sentences(_clean_sec_text(document))`, and the four
lexicon parameters are the keyword files loaded at the top of the call
(Python sets of lowercased nonempty lines, modelled as duplicate-free
lists). -/

/-- Regex word character `\w` on the ASCII range. -/
def isWordCh (c : Nat) : Bool := isDigitCh c || isAlphaCh c || c == 95

/-- The maximal word-character runs of a sentence: exactly the matches
of `re.findall(r'\b\w+\b', ...)`. -/
def word_runs (l : List Nat) : List (List Nat) :=
  (l.splitOnP fun c => !isWordCh c).filter fun w => !w.isEmpty

/-- Python `str.split()`: maximal non-whitespace runs. -/
def py_split (l : List Nat) : List (List Nat) :=
  (l.splitOnP isSpaceCh).filter fun w => !w.isEmpty

/-- `_has_risk_context`: the word set of the lowercased sentence meets
the risk-word set. -/
def has_risk_context (sentence_lower : List Nat)
    (risk_words : List (List Nat)) : Bool :=
  (word_runs sentence_lower).any fun w => risk_words.any fun rw => rw == w

/-- Python substring containment (`needle in hay`). -/
def contains_sub (hay needle : List Nat) : Bool :=
  (List.range (hay.length + 1)).any fun i =>
    (hay.drop i).take needle.length == needle

/-- The phrases of a lexicon contained in a lowercased sentence (the
list comprehensions building `found_critical` / `found_high`). -/
def found_phrases (phrases : List (List Nat)) (sent_lower : List Nat) :
    List (List Nat) :=
  phrases.filter fun ph => contains_sub sent_lower ph

/-- Number of matches of `re.findall(r'\d{5,}', ...)`: maximal digit
runs of length at least 5. -/
def digit_run_count (l : List Nat) : Nat :=
  ((l.splitOnP fun c => !isDigitCh c).filter fun r => decide (5 ≤ r.length)).length

/-- `_is_boilerplate`: an exclusion phrase occurs in the lowercased
sentence, or at least two long digit runs occur, or (for sentences over
20 characters) the digit ratio exceeds 0.15 (compared exactly:
digits / length > 3/20). -/
def is_boilerplate (sent : List Nat) (exclude : List (List Nat)) : Bool :=
  exclude.any (fun ph => contains_sub (pyLower sent) ph) ||
  decide (2 ≤ digit_run_count sent) ||
  (decide (20 < sent.length) &&
    decide (20 * (sent.filter isDigitCh).length > 3 * sent.length))

/-- The dedup fingerprint `re.sub(r'[^a-z]', '', sent_lower)`: the
lowercase letters of the lowercased sentence. -/
def fingerprint_of (sent_lower : List Nat) : List Nat :=
  sent_lower.filter fun c => decide (97 ≤ c ∧ c ≤ 122)

/-- Code points of the truncation marker " [...]". -/
def trunc_marker : List Nat := codes " [...]"

/-- Index of the last occurrence of ". " (Python `rfind('. ')`,
`none` for -1). -/
def last_dot_space : List Nat → Option Nat
  | [] => none
  | [_] => none
  | c :: d :: rest =>
    match last_dot_space (d :: rest) with
    | some i => some (i + 1)
    | none => if c == 46 && d == 32 then some 0 else none

/-- `_smart_truncate` with the default limit 280: short text unchanged;
otherwise cut after the last ". " inside the first 280 characters, else
hard-cut at 280 and append the marker. -/
def smart_truncate (text : List Nat) : List Nat :=
  if text.length ≤ 280 then text
  else
    match last_dot_space (text.take 280) with
    | some cutoff => text.take (cutoff + 1)
    | none => text.take 280 ++ trunc_marker

/-- The score of a sentence: distinct critical phrases times 15 plus
distinct high-priority phrases times 10. -/
def sentence_score (crit high : List (List Nat)) (sent : List Nat) : Nat :=
  (found_phrases crit (pyLower sent)).length * 15 +
    (found_phrases high (pyLower sent)).length * 10

/-- The per-sentence loop of `find_dangerous_sentences`, accumulating
the `scored` list; the second list argument is the mutable
`seen_fingerprints` set. The checks appear in source order: word count,
boilerplate, phrase presence, risk context, fingerprint length and
dedup (the fingerprint is recorded before the score threshold check),
then the score threshold. -/
def scored_sentences (crit high risk boiler : List (List Nat)) :
    List (List Nat) → List (List Nat) → List (Nat × List Nat)
  | [], _ => []
  | sent :: rest, seen =>
    if (py_split sent).length < 6 then
      scored_sentences crit high risk boiler rest seen
    else if is_boilerplate sent boiler then
      scored_sentences crit high risk boiler rest seen
    else if (found_phrases crit (pyLower sent)).isEmpty &&
        (found_phrases high (pyLower sent)).isEmpty then
      scored_sentences crit high risk boiler rest seen
    else if !has_risk_context (pyLower sent) risk then
      scored_sentences crit high risk boiler rest seen
    else if decide ((fingerprint_of (pyLower sent)).length < 35) ||
        seen.any (fun f => f == fingerprint_of (pyLower sent)) then
      scored_sentences crit high risk boiler rest seen
    else if (found_phrases crit (pyLower sent)).length * 15 +
        (found_phrases high (pyLower sent)).length * 10 < 10 then
      scored_sentences crit high risk boiler rest
        (fingerprint_of (pyLower sent) :: seen)
    else
      ((found_phrases crit (pyLower sent)).length * 15 +
          (found_phrases high (pyLower sent)).length * 10,
        smart_truncate sent) ::
        scored_sentences crit high risk boiler rest
          (fingerprint_of (pyLower sent) :: seen)

/-- The same loop, recording the retained sentences themselves. -/
def picked_sentences (crit high risk boiler : List (List Nat)) :
    List (List Nat) → List (List Nat) → List (List Nat)
  | [], _ => []
  | sent :: rest, seen =>
    if (py_split sent).length < 6 then
      picked_sentences crit high risk boiler rest seen
    else if is_boilerplate sent boiler then
      picked_sentences crit high risk boiler rest seen
    else if (found_phrases crit (pyLower sent)).isEmpty &&
        (found_phrases high (pyLower sent)).isEmpty then
      picked_sentences crit high risk boiler rest seen
    else if !has_risk_context (pyLower sent) risk then
      picked_sentences crit high risk boiler rest seen
    else if decide ((fingerprint_of (pyLower sent)).length < 35) ||
        seen.any (fun f => f == fingerprint_of (pyLower sent)) then
      picked_sentences crit high risk boiler rest seen
    else if (found_phrases crit (pyLower sent)).length * 15 +
        (found_phrases high (pyLower sent)).length * 10 < 10 then
      picked_sentences crit high risk boiler rest
        (fingerprint_of (pyLower sent) :: seen)
    else
      sent :: picked_sentences crit high risk boiler rest
        (fingerprint_of (pyLower sent) :: seen)

/-- The stateless retention conditions of the loop: enough words, not
boilerplate, at least one phrase, a risk-context word, and a
fingerprint of at least 35 letters. -/
def retention_candidate (crit high risk boiler : List (List Nat))
    (sent : List Nat) : Bool :=
  decide (6 ≤ (py_split sent).length) && !is_boilerplate sent boiler &&
  (!(found_phrases crit (pyLower sent)).isEmpty ||
    !(found_phrases high (pyLower sent)).isEmpty) &&
  has_risk_context (pyLower sent) risk &&
  decide (35 ≤ (fingerprint_of (pyLower sent)).length)

/-- Keep the first sentence for each fingerprint (the dedup semantics
of the `seen_fingerprints` set). -/
def first_per_fp : List (List Nat) → List (List Nat) → List (List Nat)
  | [], _ => []
  | sent :: rest, seen =>
    if seen.any fun f => f == fingerprint_of (pyLower sent) then
      first_per_fp rest seen
    else
      sent :: first_per_fp rest (fingerprint_of (pyLower sent) :: seen)

/-- Sort order of `scored.sort(key=lambda x: x[0], reverse=True)`:
score descending; the Python sort is stable, so it equals the stable
insertion sort by this total preorder. -/
def score_ge (a b : Nat × List Nat) : Prop := b.1 ≤ a.1

instance : DecidableRel score_ge := fun a b => by
  unfold score_ge; exact inferInstance

instance : IsTotal (Nat × List Nat) score_ge := by
  constructor; intro a b; unfold score_ge; omega

instance : IsTrans (Nat × List Nat) score_ge := by
  constructor; intro a b c hab hbc; unfold score_ge at *; omega

/-- The final ranking of `find_dangerous_sentences`: stable sort by
score descending, top 10, display strings only. -/
def rank_top (scored : List (Nat × List Nat)) : List (List Nat) :=
  ((List.insertionSort score_ge scored).take 10).map Prod.snd

/-- `find_dangerous_sentences`, from the segmentation output onward. -/
def find_dangerous_sentences (crit high risk boiler : List (List Nat))
    (sentences : List (List Nat)) : List (List Nat) :=
  rank_top (scored_sentences crit high risk boiler sentences [])

theorem scored_eq_picked (crit high risk boiler : List (List Nat)) :
    ∀ (sents seen : List (List Nat)),
      scored_sentences crit high risk boiler sents seen =
        (picked_sentences crit high risk boiler sents seen).map
          fun s => (sentence_score crit high s, smart_truncate s) := by
  intro sents
  induction sents with
  | nil => intro seen; rfl
  | cons sent rest ih =>
    intro seen
    rw [scored_sentences, picked_sentences]
    split_ifs with h1 h2 h3 h4 h5 h6
    · exact ih seen
    · exact ih seen
    · exact ih seen
    · exact ih seen
    · exact ih seen
    · exact ih _
    · rw [List.map_cons, ih _]
      rfl

theorem picked_eq_first_per_fp (crit high risk boiler : List (List Nat)) :
    ∀ (sents seen : List (List Nat)),
      picked_sentences crit high risk boiler sents seen =
        first_per_fp (sents.filter (retention_candidate crit high risk boiler))
          seen := by
  intro sents
  induction sents with
  | nil => intro seen; rfl
  | cons sent rest ih =>
    intro seen
    rw [picked_sentences, List.filter_cons]
    by_cases h1 : (py_split sent).length < 6
    · have hret : retention_candidate crit high risk boiler sent = false := by
        unfold retention_candidate
        rw [decide_eq_false (by omega : ¬ 6 ≤ (py_split sent).length)]
        simp
      rw [if_pos h1, hret]
      simp only [Bool.false_eq_true, if_false]
      exact ih seen
    · rw [if_neg h1]
      by_cases h2 : is_boilerplate sent boiler = true
      · have hret : retention_candidate crit high risk boiler sent = false := by
          unfold retention_candidate
          rw [h2]
          simp
        rw [if_pos h2, hret]
        simp only [Bool.false_eq_true, if_false]
        exact ih seen
      · rw [if_neg h2]
        by_cases h3 : ((found_phrases crit (pyLower sent)).isEmpty &&
            (found_phrases high (pyLower sent)).isEmpty) = true
        · have h3' : (found_phrases crit (pyLower sent)).isEmpty = true ∧
              (found_phrases high (pyLower sent)).isEmpty = true := by
            simpa using h3
          have hret : retention_candidate crit high risk boiler sent = false := by
            unfold retention_candidate
            rw [h3'.1, h3'.2]
            simp
          rw [if_pos h3, hret]
          simp only [Bool.false_eq_true, if_false]
          exact ih seen
        · rw [if_neg h3]
          have hfound : found_phrases crit (pyLower sent) ≠ [] ∨
              found_phrases high (pyLower sent) ≠ [] := by
            cases he1 : (found_phrases crit (pyLower sent)).isEmpty
            · refine Or.inl ?_
              intro hcon
              rw [hcon] at he1
              simp at he1
            · cases he2 : (found_phrases high (pyLower sent)).isEmpty
              · refine Or.inr ?_
                intro hcon
                rw [hcon] at he2
                simp at he2
              · exact absurd (by rw [he1, he2]; rfl) h3
          by_cases h4 : (!has_risk_context (pyLower sent) risk) = true
          · have h4f : has_risk_context (pyLower sent) risk = false := by
              simpa using h4
            have hret : retention_candidate crit high risk boiler sent = false := by
              unfold retention_candidate
              rw [h4f]
              simp
            rw [if_pos h4, hret]
            simp only [Bool.false_eq_true, if_false]
            exact ih seen
          · rw [if_neg h4]
            have h4' : has_risk_context (pyLower sent) risk = true := by
              simpa using h4
            by_cases h5a : (fingerprint_of (pyLower sent)).length < 35
            · have hret : retention_candidate crit high risk boiler sent = false := by
                unfold retention_candidate
                rw [decide_eq_false
                  (by omega : ¬ 35 ≤ (fingerprint_of (pyLower sent)).length)]
                simp
              rw [if_pos (by rw [decide_eq_true h5a]; simp), hret]
              simp only [Bool.false_eq_true, if_false]
              exact ih seen
            · have hret : retention_candidate crit high risk boiler sent = true := by
                unfold retention_candidate
                simp only [Bool.and_eq_true, Bool.or_eq_true, Bool.not_eq_true',
                  decide_eq_true_eq]
                refine ⟨⟨⟨⟨by omega, by simpa using h2⟩, ?_⟩, h4'⟩, by omega⟩
                rcases hfound with hf | hf
                · refine Or.inl ?_
                  cases he : (found_phrases crit (pyLower sent)).isEmpty
                  · rfl
                  · exact absurd (List.isEmpty_iff.mp he) hf
                · refine Or.inr ?_
                  cases he : (found_phrases high (pyLower sent)).isEmpty
                  · rfl
                  · exact absurd (List.isEmpty_iff.mp he) hf
              rw [hret]
              simp only [if_true]
              have hnontriv : ¬ ((found_phrases crit (pyLower sent)).length * 15 +
                  (found_phrases high (pyLower sent)).length * 10 < 10) := by
                rcases hfound with hf | hf
                · have := List.length_pos.mpr hf
                  omega
                · have := List.length_pos.mpr hf
                  omega
              by_cases h5b :
                  (seen.any fun f => f == fingerprint_of (pyLower sent)) = true
              · rw [if_pos (by rw [h5b]; simp), first_per_fp, if_pos h5b]
                exact ih seen
              · rw [if_neg (by
                    rw [decide_eq_false (by omega :
                      ¬ (fingerprint_of (pyLower sent)).length < 35)]
                    simpa using h5b),
                  first_per_fp, if_neg h5b, if_neg hnontriv]
                rw [ih _]

theorem first_per_fp_sublist :
    ∀ (l seen : List (List Nat)), (first_per_fp l seen).Sublist l := by
  intro l
  induction l with
  | nil => intro seen; exact List.Sublist.refl []
  | cons t rest ih =>
    intro seen
    rw [first_per_fp]
    split_ifs with h
    · exact (ih seen).cons t
    · exact (ih _).cons₂ t

theorem first_per_fp_fresh :
    ∀ (l seen : List (List Nat)) (s : List Nat),
      s ∈ first_per_fp l seen → fingerprint_of (pyLower s) ∉ seen := by
  intro l
  induction l with
  | nil => intro seen s hs; simp [first_per_fp] at hs
  | cons t rest ih =>
    intro seen s hs
    rw [first_per_fp] at hs
    split_ifs at hs with h
    · exact ih seen s hs
    · rcases List.mem_cons.mp hs with hs | hs
      · subst hs
        intro hmem
        exact h (by
          simp only [List.any_eq_true]
          exact ⟨_, hmem, by simp⟩)
      · intro hmem
        exact ih _ s hs (List.mem_cons_of_mem _ hmem)

theorem first_per_fp_pairwise :
    ∀ (l seen : List (List Nat)),
      List.Pairwise
        (fun a b => fingerprint_of (pyLower a) ≠ fingerprint_of (pyLower b))
        (first_per_fp l seen) := by
  intro l
  induction l with
  | nil => intro seen; simp [first_per_fp]
  | cons t rest ih =>
    intro seen
    rw [first_per_fp]
    split_ifs with h
    · exact ih seen
    · refine List.Pairwise.cons ?_ (ih _)
      intro b hb hcon
      exact first_per_fp_fresh rest _ b hb
        (by rw [← hcon]; exact List.mem_cons_self _ _)

theorem first_per_fp_covers :
    ∀ (l seen : List (List Nat)) (s : List Nat), s ∈ l →
      fingerprint_of (pyLower s) ∈ seen ∨
      fingerprint_of (pyLower s) ∈
        (first_per_fp l seen).map fun x => fingerprint_of (pyLower x) := by
  intro l
  induction l with
  | nil => intro seen s hs; simp at hs
  | cons t rest ih =>
    intro seen s hs
    rw [first_per_fp]
    split_ifs with h
    · rcases List.mem_cons.mp hs with hs | hs
      · subst hs
        left
        simp only [List.any_eq_true, beq_iff_eq] at h
        obtain ⟨f, hf, hfe⟩ := h
        rw [← hfe]
        exact hf
      · exact ih seen s hs
    · rcases List.mem_cons.mp hs with hs | hs
      · subst hs
        right
        rw [List.map_cons]
        exact List.mem_cons_self _ _
      · rcases ih (fingerprint_of (pyLower t) :: seen) s hs with hmem | hmem
        · rcases List.mem_cons.mp hmem with he | hmem2
          · right
            rw [List.map_cons, he]
            exact List.mem_cons_self _ _
          · exact Or.inl hmem2
        · right
          rw [List.map_cons]
          exact List.mem_cons_of_mem _ hmem

theorem retention_candidate_spec (crit high risk boiler : List (List Nat))
    (s : List Nat) (h : retention_candidate crit high risk boiler s = true) :
    6 ≤ (py_split s).length ∧ is_boilerplate s boiler = false ∧
    (found_phrases crit (pyLower s) ≠ [] ∨
      found_phrases high (pyLower s) ≠ []) ∧
    has_risk_context (pyLower s) risk = true ∧
    35 ≤ (fingerprint_of (pyLower s)).length := by
  unfold retention_candidate at h
  simp only [Bool.and_eq_true, Bool.or_eq_true, Bool.not_eq_true',
    decide_eq_true_eq, List.isEmpty_iff, List.isEmpty_eq_false] at h
  obtain ⟨⟨⟨⟨h1, h2⟩, h3⟩, h4⟩, h5⟩ := h
  exact ⟨h1, h2, h3, h4, h5⟩

theorem fingerprint_eq_letters (s : List Nat) :
    fingerprint_of (pyLower s) = pyLower (s.filter isAlphaCh) := by
  unfold fingerprint_of pyLower
  rw [List.filter_map]
  congr 1
  apply List.filter_congr
  intro c _
  show decide (97 ≤ pyLowerCh c ∧ pyLowerCh c ≤ 122) = isAlphaCh c
  unfold pyLowerCh isAlphaCh
  by_cases h : 65 ≤ c ∧ c ≤ 90
  · rw [if_pos h]
    simp only [decide_eq_decide]
    omega
  · rw [if_neg h]
    simp only [decide_eq_decide]
    omega

theorem last_dot_space_bound :
    ∀ (l : List Nat) (i : Nat), last_dot_space l = some i → i + 2 ≤ l.length := by
  intro l
  induction l with
  | nil => intro i h; simp [last_dot_space] at h
  | cons c tail ih =>
    intro i h
    cases tail with
    | nil => simp [last_dot_space] at h
    | cons d rest =>
      rw [last_dot_space] at h
      cases hrec : last_dot_space (d :: rest) with
      | some j =>
        rw [hrec] at h
        injection h with h
        have := ih j hrec
        simp only [List.length_cons] at *
        omega
      | none =>
        rw [hrec] at h
        split_ifs at h with hdot
        · injection h with h
          simp only [List.length_cons]
          omega

theorem smart_truncate_length (t : List Nat) :
    (smart_truncate t).length ≤ 286 := by
  unfold smart_truncate
  split_ifs with h
  · omega
  · cases hls : last_dot_space (t.take 280) with
    | some i =>
      have hb := last_dot_space_bound _ i hls
      simp only [List.length_take] at hb
      simp only [List.length_take]
      omega
    | none =>
      have hm : trunc_marker.length = 6 := by decide
      simp only [List.length_append, List.length_take, hm]
      omega

/-- The sample critical-phrase lexicon of the scoring examples. -/
def ex_crit : List (List Nat) := [codes "material weakness", codes "going concern"]

/-- The sample high-priority lexicon (empty). -/
def ex_high : List (List Nat) := []

/-- The sample risk-context lexicon. -/
def ex_risk : List (List Nat) := [codes "risk"]

/-- A sentence with two distinct critical phrases and the risk-context
word "risk". -/
def ex_sent_a : List Nat :=
  codes "material weakness and going concern create a risk for the business"

/-- A sentence with one critical phrase and no risk-context word. -/
def ex_sent_b : List Nat :=
  codes "material weakness persists across these business units"

/-- A sentence with one critical phrase where "risk" occurs only as a
substring of "risky", not as a word. -/
def ex_sent_c : List Nat :=
  codes "material weakness remains and the outlook is risky overall"

/-- C8: every entry of the scored list comes from an input sentence
passing all the per-sentence filters (at least one phrase and a
risk-context word among them) and carries the score 15 times the
distinct critical phrases contained plus 10 times the distinct
high-priority phrases (the lexicons are duplicate-free, being loaded as
Python sets); concretely, a sentence with two distinct critical phrases
and one risk-context word scores 30 and is retained, a sentence with
one critical phrase but no risk-context word is dropped, and a sentence
whose only occurrence of a risk word is inside another word is dropped
even though the risk word occurs as a substring. -/
theorem risk_scoring_spec (crit high risk boiler : List (List Nat))
    (sentences : List (List Nat)) (hc : crit.Nodup) (hh : high.Nodup) :
    ((∀ e ∈ scored_sentences crit high risk boiler sentences [],
      ∃ s ∈ sentences,
        retention_candidate crit high risk boiler s = true ∧
        e = ((found_phrases crit (pyLower s)).length * 15 +
              (found_phrases high (pyLower s)).length * 10, smart_truncate s) ∧
        (found_phrases crit (pyLower s) ≠ [] ∨
          found_phrases high (pyLower s) ≠ []) ∧
        has_risk_context (pyLower s) risk = true) ∧
    scored_sentences ex_crit ex_high ex_risk [] [ex_sent_a] [] =
      [(30, ex_sent_a)] ∧
    scored_sentences ex_crit ex_high ex_risk [] [ex_sent_b] [] = [] ∧
    (scored_sentences ex_crit ex_high ex_risk [] [ex_sent_c] [] = [] ∧
      contains_sub (pyLower ex_sent_c) (codes "risk") = true)) := by
  refine ⟨?_, by decide, by decide, by decide, by decide⟩
  intro e he
  rw [scored_eq_picked, picked_eq_first_per_fp] at he
  obtain ⟨s, hs, hes⟩ := List.mem_map.mp he
  have hsl : s ∈ sentences.filter (retention_candidate crit high risk boiler) :=
    (first_per_fp_sublist _ []).subset hs
  have hmem := (List.mem_filter.mp hsl).1
  have hret := (List.mem_filter.mp hsl).2
  have hspec := retention_candidate_spec crit high risk boiler s hret
  refine ⟨s, hmem, hret, ?_, hspec.2.2.1, hspec.2.2.2.1⟩
  rw [← hes]
  rfl

theorem risk_scoring_spec_witness :
    ex_crit.Nodup ∧ ex_high.Nodup ∧
    scored_sentences ex_crit ex_high ex_risk [] [ex_sent_a] [] =
      [(30, ex_sent_a)] :=
  ⟨by decide, by decide,
    (risk_scoring_spec ex_crit ex_high ex_risk [] [ex_sent_a]
      (by decide) (by decide)).2.1⟩

/-- C9: the fingerprint of a sentence is its letters, lowercased (so
any two sentences with the same letters up to case, i.e. differing only
in punctuation, whitespace, digits or case, share a fingerprint); the
scored list is exactly the image of the retention candidates after
keeping only the first sentence of each fingerprint; retained
fingerprints are pairwise distinct; every listed candidate fingerprint
is represented; and sentences whose fingerprint is shorter than 35
characters are never retention candidates. -/
theorem fingerprint_dedup_spec :
    (∀ s : List Nat, fingerprint_of (pyLower s) = pyLower (s.filter isAlphaCh)) ∧
    (∀ s t : List Nat,
      pyLower (s.filter isAlphaCh) = pyLower (t.filter isAlphaCh) →
      fingerprint_of (pyLower s) = fingerprint_of (pyLower t)) ∧
    (∀ crit high risk boiler sents : List (List Nat),
      scored_sentences crit high risk boiler sents [] =
        (first_per_fp (sents.filter (retention_candidate crit high risk boiler))
            []).map fun s => (sentence_score crit high s, smart_truncate s)) ∧
    (∀ l seen : List (List Nat),
      List.Pairwise
        (fun a b => fingerprint_of (pyLower a) ≠ fingerprint_of (pyLower b))
        (first_per_fp l seen)) ∧
    (∀ (l seen : List (List Nat)) (s : List Nat), s ∈ l →
      fingerprint_of (pyLower s) ∈ seen ∨
      fingerprint_of (pyLower s) ∈
        (first_per_fp l seen).map fun x => fingerprint_of (pyLower x)) ∧
    (∀ (crit high risk boiler : List (List Nat)) (s : List Nat),
      (fingerprint_of (pyLower s)).length < 35 →
      retention_candidate crit high risk boiler s = false) := by
  refine ⟨fingerprint_eq_letters, ?_, ?_, first_per_fp_pairwise,
    first_per_fp_covers, ?_⟩
  · intro s t h
    rw [fingerprint_eq_letters, fingerprint_eq_letters]
    exact h
  · intro crit high risk boiler sents
    rw [scored_eq_picked, picked_eq_first_per_fp]
  · intro crit high risk boiler s h
    unfold retention_candidate
    rw [decide_eq_false (by omega : ¬ 35 ≤ (fingerprint_of (pyLower s)).length)]
    simp

theorem fingerprint_dedup_spec_witness :
    fingerprint_of (pyLower (codes "Material weakness, persists!")) =
      fingerprint_of (pyLower (codes "MATERIAL WEAKNESS PERSISTS")) :=
  fingerprint_dedup_spec.2.1 (codes "Material weakness, persists!")
    (codes "MATERIAL WEAKNESS PERSISTS") (by decide)

/-- C10: every string returned by `find_dangerous_sentences` has at
most 286 characters; a sentence of at most 280 characters is returned
unchanged by `_smart_truncate`; a longer one cut at the last
period-space before position 280 has at most 280 characters; and
otherwise the result is the first 280 characters plus the 6-character
marker, 286 characters in all. -/
theorem truncation_bound_spec :
    (∀ (crit high risk boiler sentences : List (List Nat)),
      ∀ out ∈ find_dangerous_sentences crit high risk boiler sentences,
        out.length ≤ 286) ∧
    (∀ t : List Nat, t.length ≤ 280 → smart_truncate t = t) ∧
    (∀ (t : List Nat) (i : Nat), 280 < t.length →
      last_dot_space (t.take 280) = some i →
      smart_truncate t = t.take (i + 1) ∧ (t.take (i + 1)).length ≤ 280) ∧
    (∀ t : List Nat, 280 < t.length →
      last_dot_space (t.take 280) = none →
      smart_truncate t = t.take 280 ++ trunc_marker ∧
        (t.take 280 ++ trunc_marker).length = 286) := by
  refine ⟨?_, ?_, ?_, ?_⟩
  · intro crit high risk boiler sentences out hout
    unfold find_dangerous_sentences rank_top at hout
    obtain ⟨e, he, heq⟩ := List.mem_map.mp hout
    have he2 : e ∈ List.insertionSort score_ge
        (scored_sentences crit high risk boiler sentences []) :=
      (List.take_sublist 10 _).subset he
    have he3 : e ∈ scored_sentences crit high risk boiler sentences [] :=
      (List.perm_insertionSort score_ge _).mem_iff.mp he2
    rw [scored_eq_picked] at he3
    obtain ⟨s, _, hes⟩ := List.mem_map.mp he3
    rw [← heq, ← hes]
    exact smart_truncate_length s
  · intro t h
    unfold smart_truncate
    rw [if_pos h]
  · intro t i hlen hls
    have hb := last_dot_space_bound _ i hls
    simp only [List.length_take] at hb
    constructor
    · unfold smart_truncate
      rw [if_neg (by omega), hls]
    · simp only [List.length_take]
      omega
  · intro t hlen hls
    constructor
    · unfold smart_truncate
      rw [if_neg (by omega), hls]
    · have hm : trunc_marker.length = 6 := by decide
      simp only [List.length_append, List.length_take, hm]
      omega

theorem truncation_bound_spec_witness :
    ex_sent_a ∈ find_dangerous_sentences ex_crit ex_high ex_risk [] [ex_sent_a] ∧
    ex_sent_a.length ≤ 286 ∧
    (codes "a short sentence").length ≤ 280 ∧
    smart_truncate (codes "a short sentence") = codes "a short sentence" :=
  ⟨by decide,
    truncation_bound_spec.1 ex_crit ex_high ex_risk [] [ex_sent_a] ex_sent_a
      (by decide),
    by decide,
    truncation_bound_spec.2.1 (codes "a short sentence") (by decide)⟩

end RiskLens
